import Mathlib

/-!
Verification development for the CropRecommendationApp GraphLogic core.

The Python sources embedded here are:
  - graphrag/ingestion/ingestion_graph.py  (JSON extraction, knowledge
    extraction, Neo4j graph upserts, the ingestion main loop);
  - graphrag/retrieval/retrieval_pipeline.py  (keyword-routed graph
    retrieval, the context builder, the recommendation scorer).

Modelling conventions:
  - Python strings are Lean String (code-point for code-point; slicing
    text[:n] is String.take).
  - Python json values are the inductive Json below.  Number literals are
    kept as their lexeme, so no floating-point arithmetic is modelled in
    the parser; equality of values produced by the same parser is
    unaffected.  A \uXXXX escape that is a lone surrogate cannot inhabit
    a Lean Char and is mapped to the Char.ofNat fallback; no claim
    touches such inputs.
  - Neo4j is modelled as an explicit state (GraphState below) and each
    session.run statement as a state transformer implementing the
    documented MERGE / MATCH / SET semantics.
  - The LLM collaborators are oracle parameters of type String → String.
  - Numeric node properties in the retrieval side are modelled as ℚ.
-/

/-- Values produced by the Python json module, as used by extract_json.
Numbers keep their source lexeme; NaN and the infinities (accepted by the
default parse_constant) are separate atoms. -/
inductive Json where
  | obj (members : List (String × Json))
  | arr (elems : List Json)
  | str (s : String)
  | num (lexeme : String)
  | bool (b : Bool)
  | null
  | nan
  | inf (neg : Bool)
  deriving Repr

/-- The whitespace characters skipped by the json module between tokens
(the WHITESPACE regex [ \t\n\r]*). -/
def isJsonWs (c : Char) : Bool :=
  c = ' ' || c = '\t' || c = '\n' || c = '\r'

/-- Characters stripped by Python str.strip() (ASCII range; the inputs of
interest are ASCII). -/
def isPySpace (c : Char) : Bool :=
  c = ' ' || c = '\t' || c = '\n' || c = '\r' || c = '\x0b' || c = '\x0c'

/-- text.strip(): drop leading and trailing whitespace. -/
def pyStrip (cs : List Char) : List Char :=
  ((cs.dropWhile isPySpace).reverse.dropWhile isPySpace).reverse

/-- Skip inter-token whitespace, as the _w(s, end).end() calls do. -/
def skipWs (cs : List Char) : List Char :=
  cs.dropWhile isJsonWs

def isHexDigit (c : Char) : Bool :=
  ('0' ≤ c && c ≤ '9') || ('a' ≤ c && c ≤ 'f') || ('A' ≤ c && c ≤ 'F')

def hexVal (c : Char) : Nat :=
  if '0' ≤ c && c ≤ '9' then c.toNat - '0'.toNat
  else if 'a' ≤ c && c ≤ 'f' then c.toNat - 'a'.toNat + 10
  else c.toNat - 'A'.toNat + 10

/-- Read exactly four hex digits (the XXXX of a \uXXXX escape). -/
def readHex4 : List Char → Option (Nat × List Char)
  | a :: b :: c :: d :: rest =>
      if isHexDigit a && isHexDigit b && isHexDigit c && isHexDigit d then
        some (((hexVal a * 16 + hexVal b) * 16 + hexVal c) * 16 + hexVal d, rest)
      else
        none
  | _ => none

/-- The simple backslash escapes of py_scanstring (BACKSLASH table). -/
def simpleEscape (c : Char) : Option Char :=
  if c = '"' then some '"'
  else if c = '\\' then some '\\'
  else if c = '/' then some '/'
  else if c = 'b' then some '\x08'
  else if c = 'f' then some '\x0c'
  else if c = 'n' then some '\n'
  else if c = 'r' then some '\r'
  else if c = 't' then some '\t'
  else none

/-- py_scanstring in strict mode, on the characters after the opening
double quote: returns the decoded content and the rest after the closing
quote, or none on any scanning error (unterminated string, control
character, bad escape).  Surrogate pairs in \u escapes are combined as in
the source; a lone surrogate falls back through Char.ofNat. -/
def scanString : Nat → List Char → Option (List Char × List Char)
  | 0, _ => none
  | _ + 1, [] => none
  | fuel + 1, c :: rest =>
    if c = '"' then
      some ([], rest)
    else if c = '\\' then
      match rest with
      | [] => none
      | e :: rest1 =>
        if e = 'u' then
          match readHex4 rest1 with
          | none => none
          | some (u, rest2) =>
            if 0xd800 ≤ u && u ≤ 0xdbff then
              match rest2 with
              | '\\' :: 'u' :: rest3 =>
                match readHex4 rest3 with
                | some (u2, rest4) =>
                  if 0xdc00 ≤ u2 && u2 ≤ 0xdfff then
                    match scanString fuel rest4 with
                    | some (content, r) =>
                        some (Char.ofNat (0x10000 + (u - 0xd800) * 0x400 + (u2 - 0xdc00)) :: content, r)
                    | none => none
                  else
                    match scanString fuel rest4 with
                    | some (content, r) => some (Char.ofNat u :: Char.ofNat u2 :: content, r)
                    | none => none
                | none =>
                  match scanString fuel rest2 with
                  | some (content, r) => some (Char.ofNat u :: content, r)
                  | none => none
              | _ =>
                match scanString fuel rest2 with
                | some (content, r) => some (Char.ofNat u :: content, r)
                | none => none
            else
              match scanString fuel rest2 with
              | some (content, r) => some (Char.ofNat u :: content, r)
              | none => none
        else
          match simpleEscape e with
          | none => none
          | some d =>
            match scanString fuel rest1 with
            | some (content, r) => some (d :: content, r)
            | none => none
    else if c.toNat < 0x20 then
      none
    else
      match scanString fuel rest with
      | some (content, r) => some (c :: content, r)
      | none => none

def isDigitCh (c : Char) : Bool := '0' ≤ c && c ≤ '9'

/-- The integer part of the NUMBER_RE regex: 0, or a nonzero digit
followed by digits.  Returns the consumed lexeme and the rest. -/
def scanIntPart : List Char → Option (List Char × List Char)
  | [] => none
  | c :: rest =>
    if c = '0' then some ([c], rest)
    else if isDigitCh c then
      some (c :: rest.takeWhile isDigitCh, rest.dropWhile isDigitCh)
    else none

/-- The optional fraction part (\.\d+)? of NUMBER_RE. -/
def scanFracPart (cs : List Char) : List Char × List Char :=
  match cs with
  | '.' :: d :: rest =>
    if isDigitCh d then
      ('.' :: d :: rest.takeWhile isDigitCh, rest.dropWhile isDigitCh)
    else ([], cs)
  | _ => ([], cs)

/-- The optional exponent part ([eE][-+]?\d+)? of NUMBER_RE. -/
def scanExpPart (cs : List Char) : List Char × List Char :=
  match cs with
  | e :: rest =>
    if e = 'e' || e = 'E' then
      match rest with
      | s :: d :: rest2 =>
        if (s = '+' || s = '-') && isDigitCh d then
          (e :: s :: d :: rest2.takeWhile isDigitCh, rest2.dropWhile isDigitCh)
        else if isDigitCh s then
          (e :: s :: (d :: rest2).takeWhile isDigitCh, (d :: rest2).dropWhile isDigitCh)
        else ([], cs)
      | [s] =>
        if isDigitCh s then (e :: [s], []) else ([], cs)
      | [] => ([], cs)
    else ([], cs)
  | [] => ([], cs)

/-- match_number: the regex -?(0|[1-9]\d*)(\.\d+)?([eE][-+]?\d+)?,
anchored at the start; returns the lexeme and the rest. -/
def scanNumber (cs : List Char) : Option (List Char × List Char) :=
  match cs with
  | '-' :: rest =>
    match scanIntPart rest with
    | none => none
    | some (ip, r1) =>
      let (fp, r2) := scanFracPart r1
      let (ep, r3) := scanExpPart r2
      some ('-' :: (ip ++ fp ++ ep), r3)
  | _ =>
    match scanIntPart cs with
    | none => none
    | some (ip, r1) =>
      let (fp, r2) := scanFracPart r1
      let (ep, r3) := scanExpPart r2
      some (ip ++ fp ++ ep, r3)

/-- One step of the json scanner (_scan_once of the pure-Python scanner,
strict mode, default hooks), on a character list, returning the parsed
value and the unconsumed rest.  Fuel is structural; every recursive call
is on a strictly shorter input, so fuel = length + 1 always suffices.

Object members after a comma are parsed by re-entering the object case on
a synthetic opening brace: the grammar after the comma (whitespace, then
a double-quoted key, required by the source before looping) coincides
with the grammar after the opening brace restricted to non-empty
objects, and the guard preceding the re-entry excludes the empty-object
branch.  Array elements after a comma are handled the same way, with the
guard excluding a closing bracket so that a trailing comma fails exactly
as in the source. -/
def scanOnce : Nat → List Char → Option (Json × List Char)
  | 0, _ => none
  | _ + 1, [] => none
  | fuel + 1, c :: rest =>
    if c = '"' then
      match scanString (rest.length + 1) rest with
      | some (content, r) => some (.str (String.mk content), r)
      | none => none
    else if c = '{' then
      match skipWs rest with
      | [] => none
      | d :: rest1 =>
        if d = '}' then
          some (.obj [], rest1)
        else if d = '"' then
          match scanString (rest1.length + 1) rest1 with
          | none => none
          | some (key, r1) =>
            match skipWs r1 with
            | ':' :: r2 =>
              match scanOnce fuel (skipWs r2) with
              | none => none
              | some (v, r3) =>
                match skipWs r3 with
                | '}' :: r4 => some (.obj [(String.mk key, v)], r4)
                | ',' :: r4 =>
                  match skipWs r4 with
                  | '"' :: r5 =>
                    match scanOnce fuel ('{' :: '"' :: r5) with
                    | some (.obj ms, r6) => some (.obj ((String.mk key, v) :: ms), r6)
                    | _ => none
                  | _ => none
                | _ => none
            | _ => none
        else none
    else if c = '[' then
      match skipWs rest with
      | [] => none
      | d :: rest1 =>
        if d = ']' then
          some (.arr [], rest1)
        else
          match scanOnce fuel (d :: rest1) with
          | none => none
          | some (v, r1) =>
            match skipWs r1 with
            | ']' :: r2 => some (.arr [v], r2)
            | ',' :: r2 =>
              match skipWs r2 with
              | ']' :: _ => none
              | r3 =>
                match scanOnce fuel ('[' :: r3) with
                | some (.arr vs, r4) => some (.arr (v :: vs), r4)
                | _ => none
            | _ => none
    else
      match c :: rest with
      | 'n' :: 'u' :: 'l' :: 'l' :: r => some (.null, r)
      | 't' :: 'r' :: 'u' :: 'e' :: r => some (.bool true, r)
      | 'f' :: 'a' :: 'l' :: 's' :: 'e' :: r => some (.bool false, r)
      | cs =>
        match scanNumber cs with
        | some (lex, r) => some (.num (String.mk lex), r)
        | none =>
          match cs with
          | 'N' :: 'a' :: 'N' :: r => some (.nan, r)
          | 'I' :: 'n' :: 'f' :: 'i' :: 'n' :: 'i' :: 't' :: 'y' :: r => some (.inf false, r)
          | '-' :: 'I' :: 'n' :: 'f' :: 'i' :: 'n' :: 'i' :: 't' :: 'y' :: r => some (.inf true, r)
          | _ => none

/-- decoder.raw_decode at index 0 of the given text: parse one json value
anchored at the start, ignoring whatever follows it.  Returns the value
and the unconsumed rest, or none (JSONDecodeError). -/
def rawDecode (cs : List Char) : Option (Json × List Char) :=
  scanOnce (cs.length + 1) cs

/-- The scanning loop of extract_json: for each position holding an
opening brace, attempt raw_decode of the suffix; return the first value
that parses. -/
def scanForJson : List Char → Option Json
  | [] => none
  | c :: rest =>
    if c = '{' then
      match rawDecode (c :: rest) with
      | some (v, _) => some v
      | none => scanForJson rest
    else scanForJson rest

/-- extract_json from ingestion_graph.py: strip the text, scan
left-to-right over occurrences of the opening brace, return the first
json object that raw_decode accepts there, and otherwise fail with
ValueError carrying the (stripped, as reassigned by the source) text. -/
def extract_json (text : String) : Except String Json :=
  let t := pyStrip text.data
  match scanForJson t with
  | some v => .ok v
  | none => .error ("No valid JSON object found in LLM output:\n" ++ String.mk t)

mutual

/-- Structural equality of json values (the equality Python applies to
parsed values). -/
def jsonBeq : Json → Json → Bool
  | .obj a, .obj b => jsonMembersBeq a b
  | .arr a, .arr b => jsonElemsBeq a b
  | .str a, .str b => a == b
  | .num a, .num b => a == b
  | .bool a, .bool b => a == b
  | .null, .null => true
  | .nan, .nan => true
  | .inf a, .inf b => a == b
  | _, _ => false

def jsonMembersBeq : List (String × Json) → List (String × Json) → Bool
  | [], [] => true
  | (k, v) :: r, (k2, v2) :: r2 => k == k2 && jsonBeq v v2 && jsonMembersBeq r r2
  | _, _ => false

def jsonElemsBeq : List Json → List Json → Bool
  | [], [] => true
  | a :: r, b :: r2 => jsonBeq a b && jsonElemsBeq r r2
  | _, _ => false

end

/-- Lookup in a dict built from a member list: Python dict(pairs) keeps
the value of the last occurrence of a key, so the search runs from the
end. -/
def dictLookup (ms : List (String × Json)) (k : String) : Option Json :=
  ms.reverse.lookup k

/-- kg.get(key, []) followed by iteration: the default is the empty
list; a present value must be a list to be iterated together with the
string indexing applied to its elements, otherwise Python raises a
TypeError (collapsed here into a single error value). -/
def pyGetList (kg : Json) (k : String) : Except String (List Json) :=
  match kg with
  | .obj ms =>
    match dictLookup ms k with
    | none => .ok []
    | some (.arr xs) => .ok xs
    | some _ => .error ("TypeError: value under key " ++ k ++ " is not iterable as dicts")
  | _ => .error "TypeError: extracted value is not an object"

/-- e[key] on a parsed json value: KeyError when the key is absent,
TypeError when the value is not an object. -/
def pyIndex (e : Json) (k : String) : Except String Json :=
  match e with
  | .obj ms =>
    match dictLookup ms k with
    | some v => .ok v
    | none => .error ("KeyError: " ++ k)
  | _ => .error "TypeError: element is not an object"

/-- A Document node as persisted by the ingestion pipeline. -/
structure DocNode where
  id : String
  source : String
  text : String
  deriving Repr, DecidableEq

/-- The graph store state: Document nodes, Entity nodes (name and type
properties, both json values bound as query parameters), MENTIONED_IN
edges (entity name, document id) and RELATED_TO edges (source name,
relation type, target name). -/
structure GraphState where
  documents : List DocNode
  entities : List (Json × Json)
  mentions : List (Json × String)
  relations : List (Json × Json × Json)

def emptyGraphState : GraphState := ⟨[], [], [], []⟩

/-- MERGE (d:Document {id}) SET d.source, d.text on the document list:
update every matching node, or create one when none matches. -/
def upsertDocList (id source text : String) (docs : List DocNode) : List DocNode :=
  if docs.any (fun d => d.id == id) then
    docs.map (fun d => if d.id == id then ⟨d.id, source, text⟩ else d)
  else
    docs ++ [⟨id, source, text⟩]

/-- The first session.run of ingest_document:
MERGE (d:Document {id: $id}) SET d.source = $source, d.text = $text. -/
def mergeDocumentOp (id source text : String) (s : GraphState) : GraphState :=
  ⟨upsertDocList id source text s.documents, s.entities, s.mentions, s.relations⟩

/-- The per-entity session.run of ingest_document:
MERGE (ent:Entity {name: $name}) SET ent.type = $type
WITH ent MATCH (d:Document {id: $doc_id}) MERGE (ent)-[:MENTIONED_IN]->(d).
The entity is always upserted; the MENTIONED_IN merge runs only when the
MATCH on the document id yields rows, so a missing document makes the
edge part a row-less no-op rather than an error. -/
def mergeEntityMentionOp (name ty : Json) (doc_id : String) (s : GraphState) : GraphState :=
  let entities :=
    if s.entities.any (fun e => jsonBeq e.1 name) then
      s.entities.map (fun e => if jsonBeq e.1 name then (e.1, ty) else e)
    else
      s.entities ++ [(name, ty)]
  let mentions :=
    if s.documents.any (fun d => d.id == doc_id) then
      if s.mentions.any (fun m => jsonBeq m.1 name && m.2 == doc_id) then s.mentions
      else s.mentions ++ [(name, doc_id)]
    else
      s.mentions
  ⟨s.documents, entities, mentions, s.relations⟩

/-- The per-relation session.run of ingest_document:
MATCH (a:Entity {name: $src}) MATCH (b:Entity {name: $tgt})
MERGE (a)-[:RELATED_TO {type: $rel}]->(b).
When either MATCH yields no rows the whole statement yields no rows: no
edge is created and no error is raised. -/
def mergeRelationOp (src rel tgt : Json) (s : GraphState) : GraphState :=
  if s.entities.any (fun e => jsonBeq e.1 src) && s.entities.any (fun e => jsonBeq e.1 tgt) then
    if s.relations.any (fun r => jsonBeq r.1 src && jsonBeq r.2.1 rel && jsonBeq r.2.2 tgt) then
      s
    else
      ⟨s.documents, s.entities, s.mentions, s.relations ++ [(src, rel, tgt)]⟩
  else
    s

/-- The extraction prompt: ChatPromptTemplate.from_template applied to
the triple-quoted template of the source, with the doubled braces
rendered as literal braces and {text} substituted. -/
def promptFor (text : String) : String :=
  "\nYou are a knowledge extraction system.\n\nYour task:\n- Extract entities and relationships from the given text.\n- Respond with ONLY valid JSON.\n- Do NOT include explanations.\n- Do NOT include markdown.\n- Do NOT include text outside the JSON object.\n\nThe JSON format MUST be exactly:\n\n\x7b\n  \"entities\": [\n    \x7b \"name\": \"EntityName\", \"type\": \"EntityType\" \x7d\n  ],\n  \"relations\": [\n    \x7b \"source\": \"A\", \"relation\": \"RELATION\", \"target\": \"B\" \x7d\n  ]\n\x7d\n\nText:\n" ++ text ++ "\n"

/-- extract_knowledge: invoke the LLM collaborator (an oracle from the
formatted prompt to the response text) and parse its output through
extract_json.  The timing print is observability only and not modelled. -/
def extract_knowledge (llm : String → String) (text : String) : Except String Json :=
  extract_json (llm (promptFor text))

def MAX_CHARS : Nat := 2000

/-- ingest_document: truncate the text to MAX_CHARS for extraction,
extract knowledge (any ValueError from extract_json propagates: nothing
has been written at that point), then upsert the Document node with the
full original text, then run the per-entity and per-relation merges. -/
def ingest_document (llm : String → String) (doc : DocNode) (s : GraphState) :
    Except String GraphState := do
  let safe_text := doc.text.take MAX_CHARS
  let kg ← extract_knowledge llm safe_text
  let s1 := mergeDocumentOp doc.id doc.source doc.text s
  let ents ← pyGetList kg "entities"
  let s2 ← ents.foldlM (fun st e => do
      let name ← pyIndex e "name"
      let ty ← pyIndex e "type"
      pure (mergeEntityMentionOp name ty doc.id st)) s1
  let rels ← pyGetList kg "relations"
  let s3 ← rels.foldlM (fun st r => do
      let src ← pyIndex r "source"
      let tgt ← pyIndex r "target"
      let rel ← pyIndex r "relation"
      pure (mergeRelationOp src rel tgt st)) s2
  pure s3

/-- The __main__ loop of ingestion_graph.py: ingest each loaded document
in order; there is no try/except around ingest_document, so the first
error aborts the remaining documents. -/
def runIngestion (llm : String → String) (docs : List DocNode) (s : GraphState) :
    Except String GraphState :=
  docs.foldlM (fun st d => ingest_document llm d st) s

/-- Python str.lower() restricted to ASCII, which covers every string
this code lowercases (queries are matched against ASCII keywords, soil
types are ASCII words).  Defined directly on the character list so that
it evaluates by kernel reduction. -/
def pyCharLower (c : Char) : Char :=
  if 'A' ≤ c && c ≤ 'Z' then Char.ofNat (c.toNat + 32) else c

def pyLower (s : String) : String :=
  String.mk (s.data.map pyCharLower)

/-- Substring containment, Python `sub in hay` and Cypher CONTAINS:
some tail of hay starts with sub. -/
def containsSubB (hay sub : String) : Bool :=
  hay.data.tails.any (fun t => sub.data.isPrefixOf t)

/-- Values carried by a Neo4j result record, as handled by the Python
retrieval code: None, strings (crop names), numbers.  Numeric properties
are modelled as ℚ; their str() rendering is stood in by toString. -/
inductive PyVal where
  | pyNone
  | str (s : String)
  | rat (q : ℚ)
  deriving Repr, DecidableEq

def pyValStr : PyVal → String
  | .pyNone => "None"
  | .str s => s
  | .rat q => toString q

/-- One result row, dict(record): an association list without duplicate
keys, looked up with dict get / key-membership semantics. -/
abbrev Row := List (String × PyVal)

/-- A Crop node of the pre-seeded graph. -/
structure Crop where
  name : String
  temperature_c : ℚ
  deriving Repr, DecidableEq

/-- A Soil node of the pre-seeded graph. -/
structure Soil where
  type : String
  ph : ℚ
  moisture_percent : ℚ
  salinity_dsm : ℚ
  deriving Repr, DecidableEq

/-- A REQUIRES edge to a Nutrient node, flattened: the name of the
target Nutrient and the mgkg property of the edge. -/
structure ReqEdge where
  nutrient : String
  mgkg : ℚ
  deriving Repr, DecidableEq

/-- One Crop node together with its outgoing REQUIRES and GROWS_IN
edges: the adjacency view of the seeded graph that the two retrieval
queries pattern-match over. -/
structure CropEntry where
  crop : Crop
  requires : List ReqEdge
  grows_in : List Soil
  deriving Repr, DecidableEq

abbrev AgriDB := List CropEntry

/-- The nutrient keyword detection of graph_retrieve (lines 23-31):
uq = user_query.lower(); potassium, then nitrogen, then phosphorus. -/
def nutrientOf (user_query : String) : Option String :=
  let uq := pyLower user_query
  if containsSubB uq "potassium" then some "Potassium"
  else if containsSubB uq "nitrogen" then some "Nitrogen"
  else if containsSubB uq "phosphorus" then some "Phosphorus"
  else none

/-- Case 1 of graph_retrieve: MATCH (c:Crop)-[r:REQUIRES]->(n:Nutrient
{name:$nutrient}), (c)-[:GROWS_IN]->(s:Soil) WHERE s.salinity_dsm <= 3
AND s.moisture_percent >= 55 RETURN c.name AS crop, r.mgkg AS value. -/
def nutrientQueryRows (db : AgriDB) (nutrient : String) : List Row :=
  db.flatMap (fun e =>
    (e.requires.filter (fun r => r.nutrient == nutrient)).flatMap (fun r =>
      (e.grows_in.filter (fun s =>
          decide (s.salinity_dsm ≤ 3) && decide (55 ≤ s.moisture_percent))).map (fun _s =>
        [("crop", PyVal.str e.crop.name), ("value", PyVal.rat r.mgkg)])))

/-- Case 2 of graph_retrieve: MATCH (c:Crop)-[:GROWS_IN]->(s:Soil)
WHERE c.temperature_c between 18 and 26, s.ph between 6.0 and 7.0,
s.moisture_percent >= 55, s.salinity_dsm <= 3 RETURN c.name AS crop. -/
def generalQueryRows (db : AgriDB) : List Row :=
  db.flatMap (fun e =>
    (e.grows_in.filter (fun s =>
        decide (18 ≤ e.crop.temperature_c) && decide (e.crop.temperature_c ≤ 26) &&
        decide (6 ≤ s.ph) && decide (s.ph ≤ 7) &&
        decide (55 ≤ s.moisture_percent) && decide (s.salinity_dsm ≤ 3))).map (fun _s =>
      [("crop", PyVal.str e.crop.name)]))

/-- graph_retrieve: keyword detection selects the nutrient-specific
query, otherwise the general suitability query runs. -/
def graph_retrieve (db : AgriDB) (user_query : String) : List Row :=
  match nutrientOf user_query with
  | some nutrient => nutrientQueryRows db nutrient
  | none => generalQueryRows db

/-- The per-row rendering inside build_graph_context: crop =
r.get("crop"); rows holding a "value" key render the required-value
sentence, other rows the suitability sentence. -/
def renderRowSrc (r : Row) : String :=
  let crop := pyValStr ((r.lookup "crop").getD .pyNone)
  if (r.lookup "value").isSome then
    crop ++ " has a required value of " ++ pyValStr ((r.lookup "value").getD .pyNone) ++ "."
  else
    crop ++ " is a suitable crop under the given conditions."

/-- build_graph_context: empty input returns the empty string, otherwise
one line per row joined with newlines. -/
def build_graph_context (graph_results : List Row) : String :=
  if graph_results.isEmpty then ""
  else String.intercalate "\n" (graph_results.map renderRowSrc)

/-- The soil parameters handed to the recommendation flow. -/
structure SoilData where
  N : ℚ
  P : ℚ
  K : ℚ
  T : ℚ
  pH : ℚ
  M : ℚ
  salinity : ℚ
  soil_type : String
  deriving Repr, DecidableEq

/-- One row of the ranking query result: c.name AS crop, the computed
sum AS score. -/
structure RecRow where
  crop : String
  score : ℚ
  deriving Repr, DecidableEq

/-- The candidate (crop, soil) pairs of the ranking query: the MATCH
pattern requires at least one REQUIRES edge, and the WHERE clause is the
case-insensitive substring filter on the soil type. -/
def recCandidates (db : AgriDB) (sd : SoilData) : List (CropEntry × Soil) :=
  db.flatMap (fun e =>
    if e.requires.isEmpty then []
    else (e.grows_in.filter (fun s =>
        containsSubB (pyLower s.type) (pyLower sd.soil_type))).map (fun s => (e, s)))

/-- [x IN nutrients WHERE x.name = nm][0]: the first collected REQUIRES
edge naming the nutrient. -/
def firstWithName (nutrients : List ReqEdge) (nm : String) : Option ReqEdge :=
  nutrients.find? (fun x => x.nutrient == nm)

/-- CASE WHEN X IS NULL THEN 0 ELSE abs($input - X.mgkg) END. -/
def caseAbs (input : ℚ) (found : Option ReqEdge) : ℚ :=
  match found with
  | none => 0
  | some x => |input - x.mgkg|

/-- The score expression of the ranking query. -/
def cypherScore (sd : SoilData) (e : CropEntry) (s : Soil) : ℚ :=
  caseAbs sd.N (firstWithName e.requires "Nitrogen") +
  caseAbs sd.P (firstWithName e.requires "Phosphorus") +
  caseAbs sd.K (firstWithName e.requires "Potassium") +
  |sd.pH - s.ph| + |sd.M - s.moisture_percent| +
  |sd.salinity - s.salinity_dsm| + |sd.T - e.crop.temperature_c|

/-- query_neo4j_for_recommendation: one row per filtered (crop, soil)
pair, ORDER BY score ASC, LIMIT 3.  The store leaves the order among
equal scores unspecified; mergeSort stands in for one admissible
ordering. -/
def query_neo4j_for_recommendation (db : AgriDB) (sd : SoilData) : List RecRow :=
  (((recCandidates db sd).map (fun p => RecRow.mk p.1.crop.name (cypherScore sd p.1 p.2))).mergeSort
    (fun a b => decide (a.score ≤ b.score))).take 3

/-- The result shape of recommend_crop. -/
structure RecResult where
  crop : Option String
  alternatives : List String
  explanation : String
  deriving Repr, DecidableEq

/-- The grounded explanation prompt built by recommend_crop (the
triple-quoted f-string of the source, indentation and the mojibake
degree sign included; numeric values rendered by toString). -/
def recPrompt (soil_data : SoilData) (top_crop : String) (alternatives : List String) : String :=
  "\n    Soil conditions:\n    Nitrogen: " ++ toString soil_data.N ++ " mg/kg\n    Phosphorus: " ++
  toString soil_data.P ++ " mg/kg\n    Potassium: " ++ toString soil_data.K ++
  " mg/kg\n    Temperature: " ++ toString soil_data.T ++ " Â°C\n    Soil pH: " ++
  toString soil_data.pH ++ "\n    Moisture: " ++ toString soil_data.M ++
  " %\n    Salinity: " ++ toString soil_data.salinity ++ " dSm\n    Soil Type: " ++
  soil_data.soil_type ++ "\n\n    Recommended crop: " ++ top_crop ++
  "\n    Alternative crops: " ++ String.intercalate ", " alternatives ++
  "\n\n    Explain clearly why the recommended crop is the best choice\n    based strictly on the soil conditions.\n    "

/-- recommend_crop: empty ranking yields the sentinel result; otherwise
rank 0 is the crop, the remaining ranks the alternatives, and the LLM
collaborator supplies the explanation text. -/
def recommend_crop (llm : String → String) (db : AgriDB) (soil_data : SoilData) : RecResult :=
  let ranked_crops := query_neo4j_for_recommendation db soil_data
  match ranked_crops with
  | [] => ⟨none, [], "No crops are suitable for the given soil conditions."⟩
  | r0 :: rest =>
    let top_crop := r0.crop
    let alternatives := rest.map (fun r => r.crop)
    ⟨some top_crop, alternatives, llm (recPrompt soil_data top_crop alternatives)⟩

/-- Position-wise failure of the scan inside a prefix: every occurrence
of an opening brace in p, taken with the full remaining text (its tail
within p followed by u), is rejected by raw_decode.  This makes the
sense in which a prefix is garbage for the extractor precise. -/
def prefixFailsB : List Char → List Char → Bool
  | [], _ => true
  | c :: rest, u =>
    (if c = '{' then (rawDecode (c :: (rest ++ u))).isNone else true) && prefixFailsB rest u

/-- Modelled from the spec: the nutrient-name term of the score,
zero when the crop has no REQUIRES edge for that nutrient, otherwise the
absolute difference between the input amount and the required amount. -/
def specNutrientDelta (input : ℚ) (required : Option ℚ) : ℚ :=
  match required with
  | none => 0
  | some req => |input - req|

/-- Modelled from the spec: score = sum of absolute nutrient deltas for
N, P, K (0 if absent) plus the absolute pH, moisture, salinity and
temperature deltas.  Stated for comparison against cypherScore. -/
def specScore (sd : SoilData) (e : CropEntry) (s : Soil) : ℚ :=
  specNutrientDelta sd.N ((firstWithName e.requires "Nitrogen").map ReqEdge.mgkg) +
  specNutrientDelta sd.P ((firstWithName e.requires "Phosphorus").map ReqEdge.mgkg) +
  specNutrientDelta sd.K ((firstWithName e.requires "Potassium").map ReqEdge.mgkg) +
  |sd.pH - s.ph| + |sd.M - s.moisture_percent| +
  |sd.salinity - s.salinity_dsm| + |sd.T - e.crop.temperature_c|

/-- Modelled from the spec: the fixed keyword priority order of the
graph retriever, keyword paired with the Nutrient node name. -/
def nutrientKeywordPriority : List (String × String) :=
  [("potassium", "Potassium"), ("nitrogen", "Nitrogen"), ("phosphorus", "Phosphorus")]

/-- Modelled from the spec: first keyword (in priority order) contained
in the lowercased query wins; none selects the general branch. -/
def specDetectNutrient (q : String) : Option String :=
  (nutrientKeywordPriority.find? (fun p => containsSubB (pyLower q) p.1)).map Prod.snd

/-- Modelled from the spec: rows carrying a value render the
required-value sentence, rows without one the suitability sentence. -/
def specRenderRow (r : Row) : String :=
  match r.lookup "value" with
  | some v =>
    pyValStr ((r.lookup "crop").getD PyVal.pyNone) ++ " has a required value of " ++ pyValStr v ++ "."
  | none =>
    pyValStr ((r.lookup "crop").getD PyVal.pyNone) ++ " is a suitable crop under the given conditions."

/-! Helper lemmas shared by the claim theorems. -/

theorem containsSubB_iff {hay sub : String} :
    containsSubB hay sub = true ↔ sub.data <:+: hay.data := by
  unfold containsSubB
  rw [List.any_eq_true]
  constructor
  · rintro ⟨t, ht, hp⟩
    exact List.infix_iff_prefix_suffix.mpr
      ⟨t, Iff.mp List.isPrefixOf_iff_prefix hp, (List.mem_tails _ _).mp ht⟩
  · intro h
    obtain ⟨t, hp, hs⟩ := List.infix_iff_prefix_suffix.mp h
    exact ⟨t, (List.mem_tails _ _).mpr hs, Iff.mpr List.isPrefixOf_iff_prefix hp⟩

theorem mk_data (cs : List Char) : (String.mk cs).data = cs := rfl

theorem extract_json_eq (text : String) :
    extract_json text =
      match scanForJson (pyStrip text.data) with
      | some v => Except.ok v
      | none => Except.error
          ("No valid JSON object found in LLM output:\n" ++ String.mk (pyStrip text.data)) := rfl

theorem scanForJson_skipGarbage (p u : List Char) (h : prefixFailsB p u = true) :
    scanForJson (p ++ u) = scanForJson u := by
  induction p with
  | nil => rfl
  | cons c rest ih =>
    rw [List.cons_append]
    unfold prefixFailsB at h
    rw [Bool.and_eq_true] at h
    obtain ⟨h1, h2⟩ := h
    rw [scanForJson]
    by_cases hc : c = '{'
    · rw [if_pos hc]
      rw [if_pos hc] at h1
      cases hr : rawDecode (c :: (rest ++ u)) with
      | some val => rw [hr] at h1; simp [Option.isNone] at h1
      | none =>
        show scanForJson (rest ++ u) = scanForJson u
        exact ih h2
    · rw [if_neg hc]
      exact ih h2

theorem scanForJson_brace (w : List Char) (v : Json) (r : List Char)
    (h : rawDecode ('{' :: w) = some (v, r)) : scanForJson ('{' :: w) = some v := by
  rw [scanForJson, if_pos rfl, h]

theorem scanForJson_no_brace : ∀ cs : List Char, '{' ∉ cs → scanForJson cs = none := by
  intro cs
  induction cs with
  | nil => intro _; rfl
  | cons c rest ih =>
    intro h
    rw [scanForJson, if_neg (fun hc => h (by rw [hc]; exact List.mem_cons_self _ _))]
    exact ih (fun hm => h (List.mem_cons_of_mem c hm))

theorem scanForJson_none_of_failAll : ∀ cs : List Char,
    prefixFailsB cs [] = true → scanForJson cs = none := by
  intro cs
  induction cs with
  | nil => intro _; rfl
  | cons c rest ih =>
    intro h
    unfold prefixFailsB at h
    rw [Bool.and_eq_true] at h
    obtain ⟨h1, h2⟩ := h
    rw [scanForJson]
    by_cases hc : c = '{'
    · rw [if_pos hc]
      rw [if_pos hc, List.append_nil] at h1
      cases hr : rawDecode (c :: rest) with
      | some val => rw [hr] at h1; simp [Option.isNone] at h1
      | none =>
        show scanForJson rest = none
        exact ih h2
    · rw [if_neg hc]
      exact ih h2

theorem prefixFailsB_of_no_brace : ∀ (cs u : List Char), '{' ∉ cs → prefixFailsB cs u = true := by
  intro cs u
  induction cs with
  | nil => intro _; rfl
  | cons c rest ih =>
    intro h
    unfold prefixFailsB
    rw [Bool.and_eq_true]
    refine ⟨?_, ih (fun hm => h (List.mem_cons_of_mem c hm))⟩
    rw [if_neg (fun hc => h (by rw [hc]; exact List.mem_cons_self _ _))]

theorem strip_mem {a : Char} {cs : List Char} (h : a ∈ pyStrip cs) : a ∈ cs := by
  unfold pyStrip at h
  rw [List.mem_reverse] at h
  have h2 := (List.dropWhile_sublist _).subset h
  rw [List.mem_reverse] at h2
  exact (List.dropWhile_sublist _).subset h2

set_option maxHeartbeats 1000000 in
theorem scanOnce_brace_obj : ∀ (fuel : Nat) (w : List Char) (v : Json) (r : List Char),
    scanOnce fuel ('{' :: w) = some (v, r) → ∃ ms, v = Json.obj ms := by
  intro fuel w v r h
  match fuel with
  | 0 => exact Option.noConfusion h
  | fuel + 1 =>
    unfold scanOnce at h
    rw [if_neg (by decide), if_pos rfl] at h
    repeat' split at h
    all_goals
      first
      | exact Option.noConfusion h
      | (simp only [Option.some.injEq, Prod.mk.injEq] at h; exact ⟨_, h.1.symm⟩)

theorem scanForJson_obj : ∀ (cs : List Char) (v : Json),
    scanForJson cs = some v → ∃ ms, v = Json.obj ms := by
  intro cs
  induction cs with
  | nil => intro v h; exact Option.noConfusion h
  | cons c rest ih =>
    intro v h
    unfold scanForJson at h
    by_cases hc : c = '{'
    · rw [if_pos hc] at h
      subst hc
      cases hr : rawDecode ('{' :: rest) with
      | none => rw [hr] at h; exact ih v h
      | some pr =>
        obtain ⟨v2, r⟩ := pr
        rw [hr] at h
        cases h
        unfold rawDecode at hr
        exact scanOnce_brace_obj _ rest _ r hr
    · rw [if_neg hc] at h
      exact ih v h

theorem find?_map_upd (id src txt : String) :
    ∀ rest : List DocNode, rest.any (fun x => x.id == id) = true →
    (rest.map (fun x => if x.id == id then (⟨x.id, src, txt⟩ : DocNode) else x)).find?
      (fun d => d.id == id) = some ⟨id, src, txt⟩ := by
  intro rest
  induction rest with
  | nil => intro h; exact Bool.noConfusion h
  | cons a l ih =>
    intro h
    by_cases haid : a.id = id
    · rw [List.map_cons, if_pos (by simp [haid]), List.find?_cons_of_pos _ (by simp [haid]), haid]
    · rw [List.map_cons, if_neg (by simp [haid]), List.find?_cons_of_neg _ (by simp [haid])]
      apply ih
      rw [List.any_cons] at h
      rcases Bool.or_eq_true_iff.mp h with h1 | h1
      · exact absurd (by simpa using h1) haid
      · exact h1

theorem filter_map_upd (id src txt : String) :
    ∀ rest : List DocNode, (∀ x ∈ rest, x.id ≠ id) →
    (rest.map (fun x => if x.id == id then (⟨x.id, src, txt⟩ : DocNode) else x)).filter
      (fun d => d.id == id) = [] := by
  intro rest
  induction rest with
  | nil => intro _; rfl
  | cons a l ih =>
    intro h
    have haid : a.id ≠ id := h a (List.mem_cons_self a l)
    rw [List.map_cons, if_neg (by simp [haid]), List.filter_cons_of_neg (by simp [haid])]
    exact ih (fun x hx => h x (List.mem_cons_of_mem a hx))

theorem filter_nomatch (id : String) :
    ∀ rest : List DocNode, (∀ x ∈ rest, x.id ≠ id) →
    rest.filter (fun d => d.id == id) = [] := by
  intro rest h
  rw [List.filter_eq_nil_iff]
  intro x hx hbx
  exact h x hx (by simpa using hbx)

theorem any_eq_false_forall (id : String) (rest : List DocNode)
    (h : rest.any (fun x => x.id == id) = false) : ∀ x ∈ rest, x.id ≠ id := by
  intro x hx he
  have h2 : rest.any (fun x => x.id == id) = true := List.any_eq_true.mpr ⟨x, hx, by simp [he]⟩
  rw [h] at h2
  exact Bool.noConfusion h2

theorem upsertDocList_find? (id src txt : String) (docs : List DocNode) :
    (upsertDocList id src txt docs).find? (fun d => d.id == id) = some ⟨id, src, txt⟩ := by
  unfold upsertDocList
  by_cases ha : docs.any (fun d => d.id == id) = true
  · rw [if_pos ha]
    exact find?_map_upd id src txt docs ha
  · have ha2 : docs.any (fun d => d.id == id) = false := by simpa using ha
    rw [if_neg (by simp [ha2]), List.find?_append,
      List.find?_eq_none.mpr (fun x hx => by simp [any_eq_false_forall id docs ha2 x hx])]
    simp [List.find?]

theorem upsertDocList_filter (id src txt : String) (docs : List DocNode)
    (h : (docs.map (fun d => d.id)).Nodup) :
    (upsertDocList id src txt docs).filter (fun d => d.id == id) = [⟨id, src, txt⟩] := by
  unfold upsertDocList
  by_cases ha : docs.any (fun d => d.id == id) = true
  · rw [if_pos ha]
    obtain ⟨a, hmem, hbeq⟩ := List.any_eq_true.mp ha
    have haid : a.id = id := by simpa using hbeq
    clear ha
    induction docs with
    | nil => exact absurd hmem (List.not_mem_nil a)
    | cons d rest ih =>
      rw [List.map_cons, List.nodup_cons] at h
      obtain ⟨hnotin, hnd⟩ := h
      by_cases hd : d.id = id
      · rw [List.map_cons, if_pos (by simp [hd]), List.filter_cons_of_pos (by simp [hd]), hd]
        rw [filter_map_upd id src txt rest]
        intro x hx he
        exact hnotin (hd ▸ he ▸ List.mem_map.mpr ⟨x, hx, rfl⟩)
      · rw [List.map_cons, if_neg (by simp [hd]), List.filter_cons_of_neg (by simp [hd])]
        rcases List.mem_cons.mp hmem with rfl | hmem2
        · exact absurd haid hd
        · exact ih hnd hmem2
  · have ha2 : docs.any (fun d => d.id == id) = false := by simpa using ha
    rw [if_neg (by simp [ha2]), List.filter_append,
      filter_nomatch id docs (any_eq_false_forall id docs ha2)]
    simp [List.filter]

theorem upsertDocList_nodup (id src txt : String) (docs : List DocNode)
    (h : (docs.map (fun d => d.id)).Nodup) :
    ((upsertDocList id src txt docs).map (fun d => d.id)).Nodup := by
  unfold upsertDocList
  by_cases ha : docs.any (fun d => d.id == id) = true
  · rw [if_pos ha, List.map_map]
    have hmm : docs.map
        ((fun d => d.id) ∘ (fun d => if d.id == id then (⟨d.id, src, txt⟩ : DocNode) else d)) =
        docs.map (fun d => d.id) := by
      apply List.map_congr_left
      intro a _
      by_cases h2 : a.id = id <;> simp [h2]
    rw [hmm]
    exact h
  · have ha2 : docs.any (fun d => d.id == id) = false := by simpa using ha
    rw [if_neg (by simp [ha2]), List.map_append, List.nodup_append]
    refine ⟨h, by simp, ?_⟩
    intro a hmem hmem2
    obtain ⟨d, hd, hde⟩ := List.mem_map.mp hmem
    simp only [List.map_cons, List.map_nil, List.mem_singleton] at hmem2
    have h3 : d.id = id := by rw [hde, hmem2]
    exact absurd (any_eq_false_forall id docs ha2 d hd) (by simp [h3])

theorem exbind_ok {α β : Type} (a : α) (f : α → Except String β) :
    (Except.ok a >>= f) = f a := rfl

theorem exbind_err {α β : Type} (e : String) (f : α → Except String β) :
    ((Except.error e : Except String α) >>= f) = Except.error e := rfl

theorem mergeEntityMentionOp_documents (name ty : Json) (doc_id : String) (s : GraphState) :
    (mergeEntityMentionOp name ty doc_id s).documents = s.documents := rfl

theorem mergeRelationOp_documents (src rel tgt : Json) (s : GraphState) :
    (mergeRelationOp src rel tgt s).documents = s.documents := by
  unfold mergeRelationOp
  split
  · split <;> rfl
  · rfl

theorem foldlM_except_documents {α : Type} (f : GraphState → α → Except String GraphState)
    (hf : ∀ st a st2, f st a = Except.ok st2 → st2.documents = st.documents) :
    ∀ (l : List α) (st st2 : GraphState),
      l.foldlM f st = Except.ok st2 → st2.documents = st.documents := by
  intro l
  induction l with
  | nil =>
    intro st st2 h
    simp only [List.foldlM, pure, Except.pure] at h
    cases h
    rfl
  | cons a l ih =>
    intro st st2 h
    rw [List.foldlM_cons] at h
    cases hfa : f st a with
    | error e =>
      rw [hfa] at h
      simp only [bind, Except.bind] at h
      exact Except.noConfusion h
    | ok st1 =>
      rw [hfa] at h
      simp only [bind, Except.bind] at h
      exact (ih st1 st2 h).trans (hf st a st1 hfa)

theorem entityFold_body_documents (doc_id : String) :
    ∀ (st : GraphState) (e : Json) (st2 : GraphState),
      (do
        let name ← pyIndex e "name"
        let ty ← pyIndex e "type"
        pure (mergeEntityMentionOp name ty doc_id st) : Except String GraphState) =
          Except.ok st2 →
      st2.documents = st.documents := by
  intro st e st2 h
  cases h1 : pyIndex e "name" with
  | error er => rw [h1] at h; simp only [bind, Except.bind] at h; exact Except.noConfusion h
  | ok name =>
    rw [h1] at h
    simp only [bind, Except.bind] at h
    cases h2 : pyIndex e "type" with
    | error er => rw [h2] at h; simp only [Except.bind] at h; exact Except.noConfusion h
    | ok ty =>
      rw [h2] at h
      simp only [Except.bind, pure, Except.pure] at h
      cases h
      exact mergeEntityMentionOp_documents name ty doc_id st

theorem relationFold_body_documents :
    ∀ (st : GraphState) (r : Json) (st2 : GraphState),
      (do
        let src ← pyIndex r "source"
        let tgt ← pyIndex r "target"
        let rel ← pyIndex r "relation"
        pure (mergeRelationOp src rel tgt st) : Except String GraphState) = Except.ok st2 →
      st2.documents = st.documents := by
  intro st r st2 h
  cases h1 : pyIndex r "source" with
  | error er => rw [h1] at h; simp only [bind, Except.bind] at h; exact Except.noConfusion h
  | ok src =>
    rw [h1] at h
    simp only [bind, Except.bind] at h
    cases h2 : pyIndex r "target" with
    | error er => rw [h2] at h; simp only [Except.bind] at h; exact Except.noConfusion h
    | ok tgt =>
      rw [h2] at h
      simp only [Except.bind] at h
      cases h3 : pyIndex r "relation" with
      | error er => rw [h3] at h; simp only [Except.bind] at h; exact Except.noConfusion h
      | ok rel =>
        rw [h3] at h
        simp only [Except.bind, pure, Except.pure] at h
        cases h
        exact mergeRelationOp_documents src rel tgt st

theorem recRowLe_trans : ∀ a b c : RecRow,
    decide (a.score ≤ b.score) = true → decide (b.score ≤ c.score) = true →
    decide (a.score ≤ c.score) = true := by
  intro a b c h1 h2
  exact decide_eq_true (le_trans (of_decide_eq_true h1) (of_decide_eq_true h2))

theorem recRowLe_total : ∀ a b : RecRow,
    (decide (a.score ≤ b.score) || decide (b.score ≤ a.score)) = true := by
  intro a b
  rcases le_total a.score b.score with h | h
  · exact Or.inl (decide_eq_true h) |> Bool.or_eq_true_iff.mpr
  · exact Or.inr (decide_eq_true h) |> Bool.or_eq_true_iff.mpr

/-! The claim theorems. -/

/-- Claim C1 (amended): if knowledge extraction fails because the LLM
response contains no valid JSON, the ValueError propagates out of
ingest_document before any write, so the document text is not persisted,
and the uncaught error aborts the per-document ingestion loop: no
subsequent document is processed. -/
theorem claim_C1 : ∀ (llm : String → String) (doc : DocNode) (rest : List DocNode)
    (s : GraphState) (e : String),
    extract_json (llm (promptFor (doc.text.take 2000))) = Except.error e →
    ingest_document llm doc s = Except.error e ∧
    runIngestion llm (doc :: rest) s = Except.error e := by
  intro llm doc rest s e h
  have hi : ingest_document llm doc s = Except.error e := by
    simp only [ingest_document, extract_knowledge, MAX_CHARS]
    rw [h]
    rfl
  refine ⟨hi, ?_⟩
  unfold runIngestion
  rw [List.foldlM_cons, hi]
  rfl

/-- Claim C1 counterexample: at a concrete document whose LLM response
holds no valid JSON, ingest_document returns the error rather than a
state, so the document text is not persisted, and the two-document
pipeline returns the same error, so the loop does not continue to the
second document.  This contradicts the claim that the full text is still
persisted and that the pipeline continues. -/
theorem claim_C1_counterexample :
    ingest_document (fun _ => "Sorry, I cannot produce that.")
        ⟨"d1", "a.txt", "Rice grows in loam."⟩ emptyGraphState =
      Except.error "No valid JSON object found in LLM output:\nSorry, I cannot produce that." ∧
    runIngestion (fun _ => "Sorry, I cannot produce that.")
        [⟨"d1", "a.txt", "Rice grows in loam."⟩, ⟨"d2", "b.txt", "Wheat likes clay."⟩]
        emptyGraphState =
      Except.error "No valid JSON object found in LLM output:\nSorry, I cannot produce that." := by
  constructor <;> rfl

theorem claim_C1_witness :
    ingest_document (fun _ => "no braces at all") ⟨"w1", "w.txt", "some text"⟩ emptyGraphState =
      Except.error "No valid JSON object found in LLM output:\nno braces at all" ∧
    runIngestion (fun _ => "no braces at all") [⟨"w1", "w.txt", "some text"⟩] emptyGraphState =
      Except.error "No valid JSON object found in LLM output:\nno braces at all" :=
  claim_C1 (fun _ => "no braces at all") ⟨"w1", "w.txt", "some text"⟩ [] emptyGraphState
    "No valid JSON object found in LLM output:\nno braces at all" (by rfl)

/-- Claim C2: extract_json scans left-to-right over occurrences of the
opening brace in the stripped text and returns the first object that
raw_decode accepts.  In particular, for any text (whitespace padding
included) whose stripped form is prefix garbage (no brace position of
which parses), a valid JSON object literal and an arbitrary suffix, it
returns exactly the embedded object; for a stripped form holding two
valid JSON objects in sequence it returns the first by position; and
whenever no brace position of the stripped text yields a valid parse --
in particular for text with no opening brace at all -- it fails with the
defined ValueError carrying the offending text. -/
theorem claim_C2 :
  (∀ (t : String) (p s q : List Char) (v : Json),
      pyStrip t.data = p ++ s ++ q →
      prefixFailsB p (s ++ q) = true →
      s.head? = some '{' →
      rawDecode (s ++ q) = some (v, q) →
      extract_json t = Except.ok v)
  ∧ (∀ (t : String) (s1 s2 : List Char) (v1 v2 : Json),
      pyStrip t.data = s1 ++ s2 →
      s1.head? = some '{' → s2.head? = some '{' →
      rawDecode (s1 ++ s2) = some (v1, s2) →
      rawDecode s2 = some (v2, []) →
      extract_json t = Except.ok v1)
  ∧ (∀ t : String, prefixFailsB (pyStrip t.data) [] = true →
      extract_json t = Except.error
        ("No valid JSON object found in LLM output:\n" ++ String.mk (pyStrip t.data)))
  ∧ (∀ t : String, '{' ∉ t.data →
      extract_json t = Except.error
        ("No valid JSON object found in LLM output:\n" ++ String.mk (pyStrip t.data))) := by
  have main : ∀ (t : String) (p s q : List Char) (v : Json),
      pyStrip t.data = p ++ s ++ q →
      prefixFailsB p (s ++ q) = true →
      s.head? = some '{' →
      rawDecode (s ++ q) = some (v, q) →
      extract_json t = Except.ok v := by
    intro t p s q v hstrip hpf hhead hdec
    cases s with
    | nil => exact Option.noConfusion hhead
    | cons c s2 =>
      have hc : c = '{' := by simpa using hhead
      subst hc
      rw [extract_json_eq, hstrip, List.append_assoc]
      rw [scanForJson_skipGarbage p _ hpf]
      rw [List.cons_append] at hdec ⊢
      rw [scanForJson_brace (s2 ++ q) v q hdec]
  have fail : ∀ t : String, prefixFailsB (pyStrip t.data) [] = true →
      extract_json t = Except.error
        ("No valid JSON object found in LLM output:\n" ++ String.mk (pyStrip t.data)) := by
    intro t h
    rw [extract_json_eq, scanForJson_none_of_failAll _ h]
  refine ⟨main, ?_, fail, ?_⟩
  · intro t s1 s2 v1 v2 hstrip h1 h2 hdec hdec2
    exact main t [] s1 s2 v1 (by simpa using hstrip) rfl h1 hdec
  · intro t ht
    exact fail t (prefixFailsB_of_no_brace _ _ (fun hm => ht (strip_mem hm)))

theorem claim_C2_witness :
    extract_json "  Here is the result: \x7b\"entities\": []\x7d  " =
      Except.ok (Json.obj [("entities", Json.arr [])]) ∧
    extract_json "try \x7bbroken\x7d and \x7b]\x7d" =
      Except.error "No valid JSON object found in LLM output:\ntry \x7bbroken\x7d and \x7b]\x7d" := by
  constructor
  · exact claim_C2.1 _ "Here is the result: ".data "\x7b\"entities\": []\x7d".data []
      (Json.obj [("entities", Json.arr [])]) (by rfl) (by rfl) (by rfl) (by rfl)
  · exact claim_C2.2.2.1 "try \x7bbroken\x7d and \x7b]\x7d" (by rfl)

/-- Claim C3: for every candidate (crop, soil) pair passing the
case-insensitive soil type filter, the computed score is the sum of the
absolute nutrient deltas (0 for a nutrient the crop has no REQUIRES edge
for) plus the absolute pH, moisture, salinity and temperature deltas;
the result is sorted ascending by score and holds at most the top 3; and
an input whose deltas against one candidate are all zero, every other
candidate scoring positive, ranks that crop first with score 0. -/
theorem claim_C3 :
  (∀ (sd : SoilData) (e : CropEntry) (s : Soil), cypherScore sd e s = specScore sd e s)
  ∧ (∀ (db : AgriDB) (sd : SoilData),
      (query_neo4j_for_recommendation db sd).length ≤ 3 ∧
      (query_neo4j_for_recommendation db sd).Pairwise (fun a b => a.score ≤ b.score) ∧
      ∀ row ∈ query_neo4j_for_recommendation db sd, ∃ p ∈ recCandidates db sd,
        row = ⟨p.1.crop.name, specScore sd p.1 p.2⟩)
  ∧ (∀ (db : AgriDB) (sd : SoilData) (e : CropEntry) (s : Soil),
      (e, s) ∈ recCandidates db sd → cypherScore sd e s = 0 →
      (∀ p ∈ recCandidates db sd, p ≠ (e, s) → 0 < cypherScore sd p.1 p.2) →
      (query_neo4j_for_recommendation db sd).head? = some ⟨e.crop.name, 0⟩) := by
  have hscore : ∀ (sd : SoilData) (e : CropEntry) (s : Soil),
      cypherScore sd e s = specScore sd e s := by
    intro sd e s
    unfold cypherScore specScore caseAbs specNutrientDelta
    cases h1 : firstWithName e.requires "Nitrogen" <;>
      cases h2 : firstWithName e.requires "Phosphorus" <;>
        cases h3 : firstWithName e.requires "Potassium" <;> simp [h1, h2, h3]
  refine ⟨hscore, ?_, ?_⟩
  · intro db sd
    refine ⟨?_, ?_, ?_⟩
    · show ((((recCandidates db sd).map _).mergeSort _).take 3).length ≤ 3
      rw [List.length_take]
      exact inf_le_left
    · have hs := List.sorted_mergeSort recRowLe_trans recRowLe_total
        ((recCandidates db sd).map (fun p => RecRow.mk p.1.crop.name (cypherScore sd p.1 p.2)))
      have hsub := List.take_sublist 3
        (((recCandidates db sd).map
          (fun p => RecRow.mk p.1.crop.name (cypherScore sd p.1 p.2))).mergeSort
          (fun a b => decide (a.score ≤ b.score)))
      exact (hs.sublist hsub).imp (fun h => of_decide_eq_true h)
    · intro row hrow
      have h1 : row ∈ ((recCandidates db sd).map
          (fun p => RecRow.mk p.1.crop.name (cypherScore sd p.1 p.2))).mergeSort
            (fun a b => decide (a.score ≤ b.score)) :=
        (List.take_sublist _ _).subset hrow
      have h2 : row ∈ (recCandidates db sd).map
          (fun p => RecRow.mk p.1.crop.name (cypherScore sd p.1 p.2)) :=
        (List.mergeSort_perm _ _).mem_iff.mp h1
      obtain ⟨p, hp, hfp⟩ := List.mem_map.mp h2
      exact ⟨p, hp, by rw [← hfp, hscore]⟩
  · intro db sd e s hmem h0 hpos
    have hz : (⟨e.crop.name, 0⟩ : RecRow) ∈ (recCandidates db sd).map
        (fun p => RecRow.mk p.1.crop.name (cypherScore sd p.1 p.2)) :=
      List.mem_map.mpr ⟨(e, s), hmem, by rw [h0]⟩
    have hperm := List.mergeSort_perm ((recCandidates db sd).map
        (fun p => RecRow.mk p.1.crop.name (cypherScore sd p.1 p.2)))
      (fun a b => decide (a.score ≤ b.score))
    have hsorted := List.sorted_mergeSort recRowLe_trans recRowLe_total
      ((recCandidates db sd).map (fun p => RecRow.mk p.1.crop.name (cypherScore sd p.1 p.2)))
    have hq : query_neo4j_for_recommendation db sd =
        (((recCandidates db sd).map
          (fun p => RecRow.mk p.1.crop.name (cypherScore sd p.1 p.2))).mergeSort
            (fun a b => decide (a.score ≤ b.score))).take 3 := rfl
    cases hsort : ((recCandidates db sd).map
        (fun p => RecRow.mk p.1.crop.name (cypherScore sd p.1 p.2))).mergeSort
          (fun a b => decide (a.score ≤ b.score)) with
    | nil =>
      rw [hsort] at hperm
      exact absurd (hperm.symm.mem_iff.mp hz) (List.not_mem_nil _)
    | cons r0 tail =>
      rw [hsort] at hperm hsorted
      rw [List.pairwise_cons] at hsorted
      obtain ⟨hle, _⟩ := hsorted
      have hr0 : r0 ∈ (recCandidates db sd).map
          (fun p => RecRow.mk p.1.crop.name (cypherScore sd p.1 p.2)) :=
        hperm.mem_iff.mp (List.mem_cons_self _ _)
      obtain ⟨p, hp, hfp⟩ := List.mem_map.mp hr0
      have hhead : (query_neo4j_for_recommendation db sd).head? = some r0 := by
        rw [hq, hsort]
        rfl
      by_cases hpe : p = (e, s)
      · subst hpe
        rw [hhead, ← hfp, h0]
      · have hppos : 0 < cypherScore sd p.1 p.2 := hpos p hp hpe
        have hzmem : (⟨e.crop.name, 0⟩ : RecRow) ∈ r0 :: tail := hperm.symm.mem_iff.mp hz
        rcases List.mem_cons.mp hzmem with heq | htail
        · exfalso
          have h4 : r0.score = 0 := by rw [← heq]
          rw [← hfp] at h4
          simp only at h4
          rw [h4] at hppos
          exact lt_irrefl 0 hppos
        · exfalso
          have hle0 := of_decide_eq_true (hle _ htail)
          simp only at hle0
          rw [← hfp] at hle0
          simp only at hle0
          exact absurd (lt_of_lt_of_le hppos hle0) (lt_irrefl 0)

theorem claim_C3_witness :
    (query_neo4j_for_recommendation
        [⟨⟨"Rice", 25⟩, [⟨"Nitrogen", 80⟩], [⟨"Clay", 6, 60, 1⟩]⟩,
         ⟨⟨"Wheat", 20⟩, [⟨"Nitrogen", 50⟩], [⟨"Clay", 7, 50, 2⟩]⟩]
        ⟨80, 0, 0, 25, 6, 60, 1, "Clay"⟩).head? = some ⟨"Rice", 0⟩ := by
  have hn80 : firstWithName [⟨"Nitrogen", (80 : ℚ)⟩] "Nitrogen" = some ⟨"Nitrogen", 80⟩ := by
    decide
  have hp80 : firstWithName [⟨"Nitrogen", (80 : ℚ)⟩] "Phosphorus" = none := by decide
  have hk80 : firstWithName [⟨"Nitrogen", (80 : ℚ)⟩] "Potassium" = none := by decide
  have hn50 : firstWithName [⟨"Nitrogen", (50 : ℚ)⟩] "Nitrogen" = some ⟨"Nitrogen", 50⟩ := by
    decide
  have hp50 : firstWithName [⟨"Nitrogen", (50 : ℚ)⟩] "Phosphorus" = none := by decide
  have hk50 : firstWithName [⟨"Nitrogen", (50 : ℚ)⟩] "Potassium" = none := by decide
  refine claim_C3.2.2 _ _ ⟨⟨"Rice", 25⟩, [⟨"Nitrogen", 80⟩], [⟨"Clay", 6, 60, 1⟩]⟩
    ⟨"Clay", 6, 60, 1⟩ (by decide) ?_ ?_
  · simp only [cypherScore, caseAbs, hn80, hp80, hk80]
    norm_num
  · have hcand : recCandidates
        [⟨⟨"Rice", 25⟩, [⟨"Nitrogen", 80⟩], [⟨"Clay", 6, 60, 1⟩]⟩,
         ⟨⟨"Wheat", 20⟩, [⟨"Nitrogen", 50⟩], [⟨"Clay", 7, 50, 2⟩]⟩]
        ⟨80, 0, 0, 25, 6, 60, 1, "Clay"⟩ =
      [(⟨⟨"Rice", 25⟩, [⟨"Nitrogen", 80⟩], [⟨"Clay", 6, 60, 1⟩]⟩, ⟨"Clay", 6, 60, 1⟩),
       (⟨⟨"Wheat", 20⟩, [⟨"Nitrogen", 50⟩], [⟨"Clay", 7, 50, 2⟩]⟩, ⟨"Clay", 7, 50, 2⟩)] := by
      decide
    intro p hp hne
    rw [hcand] at hp
    rcases List.mem_cons.mp hp with rfl | hp2
    · exact absurd rfl hne
    · rcases List.mem_cons.mp hp2 with rfl | hp3
      · simp only [cypherScore, caseAbs, hn50, hp50, hk50]
        norm_num
      · exact absurd hp3 (List.not_mem_nil p)

/-- Claim C4: merging a MENTIONED_IN edge whose referencing Document id
does not exist changes no mention edge and raises no error (the
operation stays a total state transformer and leaves documents and
relations untouched as well), and merging an extracted relation whose
source or target Entity name does not already exist leaves the state
entirely unchanged and raises no error. -/
theorem claim_C4 :
  (∀ (name ty : Json) (doc_id : String) (s : GraphState),
      s.documents.any (fun d => d.id == doc_id) = false →
      (mergeEntityMentionOp name ty doc_id s).mentions = s.mentions ∧
      (mergeEntityMentionOp name ty doc_id s).documents = s.documents ∧
      (mergeEntityMentionOp name ty doc_id s).relations = s.relations)
  ∧ (∀ (src rel tgt : Json) (s : GraphState),
      s.entities.any (fun e => jsonBeq e.1 src) = false ∨
        s.entities.any (fun e => jsonBeq e.1 tgt) = false →
      mergeRelationOp src rel tgt s = s) := by
  constructor
  · intro name ty doc_id s h
    refine ⟨?_, rfl, rfl⟩
    simp [mergeEntityMentionOp, h]
  · intro src rel tgt s h
    unfold mergeRelationOp
    rcases h with h | h <;> simp [h]

theorem claim_C4_witness :
  (mergeEntityMentionOp (Json.str "Wheat") (Json.str "Crop") "d9"
      ⟨[], [(Json.str "Rice", Json.str "Crop")], [], []⟩).mentions = [] ∧
  mergeRelationOp (Json.str "Rice") (Json.str "GROWS_IN") (Json.str "Oats")
      ⟨[], [(Json.str "Rice", Json.str "Crop")], [], []⟩ =
    ⟨[], [(Json.str "Rice", Json.str "Crop")], [], []⟩ := by
  constructor
  · exact (claim_C4.1 _ _ _ _ (by rfl)).1
  · exact claim_C4.2 _ _ _ _ (Or.inr (by rfl))

/-- Claim C5: the Document upsert is idempotent on id: upserting the
same id twice (with possibly different source and text) against a store
whose document ids are distinct leaves exactly one Document node with
that id, and its source and text are the values of the latest upsert. -/
theorem claim_C5 : ∀ (g : GraphState) (id src1 txt1 src2 txt2 : String),
    (g.documents.map (fun d => d.id)).Nodup →
    ((mergeDocumentOp id src2 txt2 (mergeDocumentOp id src1 txt1 g)).documents.filter
        (fun d => d.id == id)) = [⟨id, src2, txt2⟩] := by
  intro g id src1 txt1 src2 txt2 h
  exact upsertDocList_filter id src2 txt2 _ (upsertDocList_nodup id src1 txt1 _ h)

theorem claim_C5_witness :
    ((mergeDocumentOp "doc-1" "new.txt" "second text"
        (mergeDocumentOp "doc-1" "mid.txt" "first text"
          ⟨[⟨"doc-1", "old.txt", "old text"⟩], [], [], []⟩)).documents.filter
      (fun d => d.id == "doc-1")) = [⟨"doc-1", "new.txt", "second text"⟩] := by
  exact claim_C5 ⟨[⟨"doc-1", "old.txt", "old text"⟩], [], [], []⟩ "doc-1" "mid.txt" "first text"
    "new.txt" "second text" (by decide)

/-- Claim C6: when the ranking query returns no rows, recommend_crop
returns exactly the sentinel result with a null crop, no alternatives
and the fixed explanation sentence, without failing; when the ranked
list is non-empty the returned crop is the crop at rank 0 and the
alternatives are the crops at the remaining ranks, in order. -/
theorem claim_C6 :
  (∀ (llm : String → String) (db : AgriDB) (sd : SoilData),
      query_neo4j_for_recommendation db sd = [] →
      recommend_crop llm db sd =
        ⟨none, [], "No crops are suitable for the given soil conditions."⟩)
  ∧ (∀ (llm : String → String) (db : AgriDB) (sd : SoilData) (r0 : RecRow) (rest : List RecRow),
      query_neo4j_for_recommendation db sd = r0 :: rest →
      (recommend_crop llm db sd).crop = some r0.crop ∧
      (recommend_crop llm db sd).alternatives = rest.map (fun r => r.crop)) := by
  constructor
  · intro llm db sd h
    simp [recommend_crop, h]
  · intro llm db sd r0 rest h
    simp [recommend_crop, h]

theorem claim_C6_witness :
    recommend_crop (fun _ => "explanation text") [] ⟨0, 0, 0, 0, 0, 0, 0, "Loam"⟩ =
      ⟨none, [], "No crops are suitable for the given soil conditions."⟩ ∧
    (recommend_crop (fun _ => "explanation text")
        [⟨⟨"Rice", 25⟩, [⟨"Nitrogen", 80⟩], [⟨"Clay", 6, 60, 1⟩]⟩]
        ⟨80, 0, 0, 25, 6, 60, 1, "Clay"⟩).crop = some "Rice" := by
  constructor
  · exact claim_C6.1 _ [] _
      (by simp [query_neo4j_for_recommendation, recCandidates, List.mergeSort_nil])
  · have hcand : recCandidates [⟨⟨"Rice", 25⟩, [⟨"Nitrogen", 80⟩], [⟨"Clay", 6, 60, 1⟩]⟩]
        ⟨80, 0, 0, 25, 6, 60, 1, "Clay"⟩ =
        [(⟨⟨"Rice", 25⟩, [⟨"Nitrogen", 80⟩], [⟨"Clay", 6, 60, 1⟩]⟩, ⟨"Clay", 6, 60, 1⟩)] := by
      decide
    have hsc : cypherScore ⟨80, 0, 0, 25, 6, 60, 1, "Clay"⟩
        ⟨⟨"Rice", 25⟩, [⟨"Nitrogen", 80⟩], [⟨"Clay", 6, 60, 1⟩]⟩ ⟨"Clay", 6, 60, 1⟩ = 0 := by
      have hn80 : firstWithName [⟨"Nitrogen", (80 : ℚ)⟩] "Nitrogen" = some ⟨"Nitrogen", 80⟩ := by
        decide
      have hp80 : firstWithName [⟨"Nitrogen", (80 : ℚ)⟩] "Phosphorus" = none := by decide
      have hk80 : firstWithName [⟨"Nitrogen", (80 : ℚ)⟩] "Potassium" = none := by decide
      simp only [cypherScore, caseAbs, hn80, hp80, hk80]
      norm_num
    have hq : query_neo4j_for_recommendation
        [⟨⟨"Rice", 25⟩, [⟨"Nitrogen", 80⟩], [⟨"Clay", 6, 60, 1⟩]⟩]
        ⟨80, 0, 0, 25, 6, 60, 1, "Clay"⟩ = [⟨"Rice", 0⟩] := by
      show (((recCandidates _ _).map
          (fun p => RecRow.mk p.1.crop.name
            (cypherScore ⟨80, 0, 0, 25, 6, 60, 1, "Clay"⟩ p.1 p.2))).mergeSort
          (fun a b => decide (a.score ≤ b.score))).take 3 = [⟨"Rice", 0⟩]
      rw [hcand, List.map_cons, List.map_nil, hsc, List.mergeSort_singleton]
      rfl
    exact (claim_C6.2 (fun _ => "explanation text") _ _ ⟨"Rice", 0⟩ [] hq).1

/-- Claim C7: ingest_document depends on the document text only through
its first MAX_CHARS = 2000 characters as far as the LLM is concerned
(two collaborators agreeing on the truncated prompt produce identical
results), while on success the persisted Document node carries the full
original text unmodified. -/
theorem claim_C7 :
  (∀ (llm llm2 : String → String) (doc : DocNode) (s : GraphState),
      llm (promptFor (doc.text.take 2000)) = llm2 (promptFor (doc.text.take 2000)) →
      ingest_document llm doc s = ingest_document llm2 doc s)
  ∧ (∀ (llm : String → String) (doc : DocNode) (s s2 : GraphState),
      ingest_document llm doc s = Except.ok s2 →
      s2.documents.find? (fun d => d.id == doc.id) = some ⟨doc.id, doc.source, doc.text⟩) := by
  constructor
  · intro llm llm2 doc s h
    simp only [ingest_document, extract_knowledge, MAX_CHARS]
    rw [h]
  · intro llm doc s s2 h
    simp only [ingest_document] at h
    cases hkg : extract_knowledge llm (doc.text.take MAX_CHARS) with
    | error er => rw [hkg, exbind_err] at h; exact Except.noConfusion h
    | ok kg =>
      rw [hkg, exbind_ok] at h
      cases hents : pyGetList kg "entities" with
      | error er => rw [hents, exbind_err] at h; exact Except.noConfusion h
      | ok ents =>
        rw [hents, exbind_ok] at h
        cases hf1 : ents.foldlM (fun st e => do
            let name ← pyIndex e "name"
            let ty ← pyIndex e "type"
            pure (mergeEntityMentionOp name ty doc.id st))
            (mergeDocumentOp doc.id doc.source doc.text s) with
        | error er => rw [hf1, exbind_err] at h; exact Except.noConfusion h
        | ok sa =>
          rw [hf1, exbind_ok] at h
          cases hrels : pyGetList kg "relations" with
          | error er => rw [hrels, exbind_err] at h; exact Except.noConfusion h
          | ok rels =>
            rw [hrels, exbind_ok] at h
            cases hf2 : rels.foldlM (fun st r => do
                let src ← pyIndex r "source"
                let tgt ← pyIndex r "target"
                let rel ← pyIndex r "relation"
                pure (mergeRelationOp src rel tgt st)) sa with
            | error er => rw [hf2, exbind_err] at h; exact Except.noConfusion h
            | ok sb =>
              rw [hf2, exbind_ok] at h
              simp only [pure, Except.pure] at h
              cases h
              have hb : s2.documents = sa.documents :=
                foldlM_except_documents _ relationFold_body_documents rels sa s2 hf2
              have ha : sa.documents = (mergeDocumentOp doc.id doc.source doc.text s).documents :=
                foldlM_except_documents _ (entityFold_body_documents doc.id) ents _ sa hf1
              rw [hb, ha]
              exact upsertDocList_find? doc.id doc.source doc.text s.documents

theorem claim_C7_witness :
    ingest_document (fun _ => "\x7b\"entities\": [], \"relations\": []\x7d")
        ⟨"w7", "w7.txt", "short text"⟩ emptyGraphState =
      ingest_document (fun p => (fun _ => "\x7b\"entities\": [], \"relations\": []\x7d") p)
        ⟨"w7", "w7.txt", "short text"⟩ emptyGraphState ∧
    ((⟨[⟨"w7", "w7.txt", "short text"⟩], [], [], []⟩ : GraphState).documents.find?
        (fun d => d.id == "w7")) = some ⟨"w7", "w7.txt", "short text"⟩ := by
  constructor
  · exact claim_C7.1 _ _ ⟨"w7", "w7.txt", "short text"⟩ emptyGraphState rfl
  · exact claim_C7.2 (fun _ => "\x7b\"entities\": [], \"relations\": []\x7d")
      ⟨"w7", "w7.txt", "short text"⟩ emptyGraphState
      ⟨[⟨"w7", "w7.txt", "short text"⟩], [], [], []⟩ (by rfl)

/-- Claim C8: graph_retrieve selects the nutrient-specific branch if and
only if the lowercased query contains potassium, nitrogen or phosphorus
as a substring; the matched nutrient is decided by the first match in
that fixed priority order (equivalence with the spec-side priority-list
detector); and any query containing nitrogen in any case selects the
nutrient-specific branch, never the general one. -/
theorem claim_C8 :
  (∀ q : String, (nutrientOf q).isSome = true ↔
      ("potassium".data <:+: (pyLower q).data ∨ "nitrogen".data <:+: (pyLower q).data ∨
       "phosphorus".data <:+: (pyLower q).data))
  ∧ (∀ q : String, nutrientOf q = specDetectNutrient q)
  ∧ (∀ (q : String) (db : AgriDB), "nitrogen".data <:+: (pyLower q).data →
      ∃ n, nutrientOf q = some n ∧ graph_retrieve db q = nutrientQueryRows db n) := by
  refine ⟨?_, ?_, ?_⟩
  · intro q
    have hb : (nutrientOf q).isSome = true ↔
        (containsSubB (pyLower q) "potassium" = true ∨
         containsSubB (pyLower q) "nitrogen" = true ∨
         containsSubB (pyLower q) "phosphorus" = true) := by
      unfold nutrientOf
      cases h1 : containsSubB (pyLower q) "potassium" <;>
        cases h2 : containsSubB (pyLower q) "nitrogen" <;>
          cases h3 : containsSubB (pyLower q) "phosphorus" <;> simp [h1, h2, h3]
    rw [hb]
    simp only [containsSubB_iff]
  · intro q
    unfold nutrientOf specDetectNutrient nutrientKeywordPriority
    cases h1 : containsSubB (pyLower q) "potassium" <;>
      cases h2 : containsSubB (pyLower q) "nitrogen" <;>
        cases h3 : containsSubB (pyLower q) "phosphorus" <;> simp [h1, h2, h3, List.find?]
  · intro q db h
    rw [← containsSubB_iff] at h
    cases h1 : containsSubB (pyLower q) "potassium"
    · exact ⟨"Nitrogen", by simp [nutrientOf, h1, h], by simp [graph_retrieve, nutrientOf, h1, h]⟩
    · exact ⟨"Potassium", by simp [nutrientOf, h1], by simp [graph_retrieve, nutrientOf, h1]⟩

theorem claim_C8_witness :
    ∃ n, nutrientOf "Which crops need more NITROGEN in sandy soil?" = some n ∧
      graph_retrieve [] "Which crops need more NITROGEN in sandy soil?" = nutrientQueryRows [] n := by
  exact claim_C8.2.2 "Which crops need more NITROGEN in sandy soil?" []
    (containsSubB_iff.mp (by rfl))

/-- Claim C9: build_graph_context maps the empty row list to the empty
string, and any row list to one sentence per row joined with newlines in
input order, where a row carrying a value key renders the required-value
sentence and any other row the suitability sentence; a single
value-bearing row renders exactly the required-value template. -/
theorem claim_C9 :
  build_graph_context [] = ""
  ∧ (∀ rows : List Row, build_graph_context rows = String.intercalate "\n" (rows.map specRenderRow))
  ∧ (∀ (crop : String) (v : PyVal),
      build_graph_context [[("crop", PyVal.str crop), ("value", v)]] =
        crop ++ " has a required value of " ++ pyValStr v ++ ".") := by
  have hrow : renderRowSrc = specRenderRow := by
    funext r
    unfold renderRowSrc specRenderRow
    cases h : r.lookup "value" <;> simp [h]
  refine ⟨rfl, ?_, ?_⟩
  · intro rows
    cases rows with
    | nil => rfl
    | cons r rest =>
      unfold build_graph_context
      rw [hrow]
      simp
  · intro crop v
    simp [build_graph_context, renderRowSrc, List.lookup, String.intercalate,
      String.intercalate.go, pyValStr]

/-- Claim C10: every value extract_json returns is a JSON object
(mapping), never a top-level array, string, number or boolean, because
parses are attempted only at positions of the opening brace; and on the
input [1, 2, 3], which is valid JSON but not an object, it raises the
no-JSON-found error despite the input being valid JSON. -/
theorem claim_C10 :
  (∀ (t : String) (v : Json), extract_json t = Except.ok v → ∃ ms, v = Json.obj ms)
  ∧ extract_json "[1, 2, 3]" =
      Except.error "No valid JSON object found in LLM output:\n[1, 2, 3]" := by
  constructor
  · intro t v h
    rw [extract_json_eq] at h
    cases hs : scanForJson (pyStrip t.data) with
    | none => rw [hs] at h; exact Except.noConfusion h
    | some v2 =>
      rw [hs] at h
      cases h
      exact scanForJson_obj _ _ hs
  · rfl

theorem claim_C10_witness : ∃ ms, Json.obj [("k", Json.bool true)] = Json.obj ms :=
  claim_C10.1 "\x7b\"k\": true\x7d" (Json.obj [("k", Json.bool true)]) (by rfl)
